import Mathlib

/-!
Shallow embedding of the Smart Queue / Accurate History subsystem of
`mt5-service/smart_queue_service.py`.

Conventions of the embedding:
* Python floats are modelled as rationals (`ℚ`); the claims under study
  involve only exact arithmetic (`+`, `*`, `/`, `abs`, comparisons).
* Instants (`datetime`) are modelled as rationals (seconds).
* The MT5 terminal driver is modelled by passing the result of each
  driver query (`history_deals_get`, `history_orders_get`,
  `positions_get`) as an explicit argument; a `None` result from the
  driver is identified with the empty list (the code only tests
  falsiness: `if not deals: ...`).
* A Python dict entry that may be absent is an `Option`; for the
  `sl`/`tp` keys of the fetcher result, where the key can be present
  with value `None`, the type is `Option (Option ℚ)`: the outer layer
  is key presence (`data.get` with a default), the inner layer is the
  value itself.
-/

namespace MT5

/-- Deal direction constants `mt5.DEAL_ENTRY_*`. -/
inductive DealEntry
  | IN
  | OUT
  | INOUT
  | OUT_BY
deriving DecidableEq, Repr

/-- Deal type constants `mt5.DEAL_TYPE_*` (only BUY is tested by the code). -/
inductive DealType
  | BUY
  | SELL
  | BALANCE
deriving DecidableEq, Repr

/-- Position type constants `mt5.POSITION_TYPE_*`. -/
inductive PosType
  | BUY
  | SELL
deriving DecidableEq, Repr

/-- A deal record as returned by `mt5.history_deals_get` (the fields read
by the code). -/
structure Deal where
  position_id : Int
  entry : DealEntry
  dtype : DealType
  symbol : String
  volume : ℚ
  price : ℚ
  time : ℚ
  profit : ℚ
  swap : ℚ
  commission : ℚ
deriving DecidableEq, Repr

/-- An order record as returned by `mt5.history_orders_get` (the fields read
by the code). -/
structure Order where
  position_id : Int
  price_current : ℚ
  time_done : ℚ
  sl : ℚ
  tp : ℚ
deriving DecidableEq, Repr

/-- A raw open position as returned by `mt5.positions_get` (the fields read
by `PositionSnapshot.__init__`). -/
structure Position where
  ticket : Int
  symbol : String
  ptype : PosType
  volume : ℚ
  price_open : ℚ
  price_current : ℚ
  sl : ℚ
  tp : ℚ
  profit : ℚ
  swap : ℚ
  time : ℚ
deriving DecidableEq, Repr

/-- The dict built by `AccurateHistoryFetcher._fetch_from_deals` /
`_fetch_from_orders`.  Keys that are present in one source but not the
other are `Option`; the `sl`/`tp` keys are `Option (Option ℚ)` (see the
file header). -/
structure TradeData where
  source : String
  accuracy : String
  ticket : Int
  symbol : Option String := none
  volume : Option ℚ := none
  exit_price : ℚ
  exit_time : ℚ
  profit : ℚ
  swap : ℚ
  commission : ℚ
  entry_price : Option ℚ := none
  entry_time : Option ℚ := none
  side : Option String := none
  sl : Option (Option ℚ) := none
  tp : Option (Option ℚ) := none
deriving DecidableEq, Repr

/-- `AccurateHistoryFetcher._get_sl_tp_from_orders`: scan the 1-hour order
history for the first order whose `position_id` equals the ticket and
return its `(sl, tp)` with zero normalized to `None`; `(None, None)` when
no order matches.  `orders1h` is the driver result of
`history_orders_get(now - 1h, now)`. -/
def getSlTpFromOrders (orders1h : List Order) (ticket : Int) : Option ℚ × Option ℚ :=
  match orders1h.find? (fun o => o.position_id == ticket) with
  | some o => (if 0 < o.sl then some o.sl else none, if 0 < o.tp then some o.tp else none)
  | none => (none, none)

/-- One iteration of the entry/exit scan loop of `_fetch_from_deals`
(the state is the pair `(entry_deal, exit_deal)`). -/
def feeStep (ticket : Int) (p : Option Deal × Option Deal) (d : Deal) :
    Option Deal × Option Deal :=
  if d.position_id == ticket then
    if d.entry == DealEntry.IN then (some d, p.2)
    else if d.entry == DealEntry.OUT then (p.1, some d)
    else p
  else p

/-- The entry/exit scan loop of `_fetch_from_deals`: for each deal whose
`position_id` equals the ticket, the last `IN` deal is kept as entry and
the last `OUT` deal as exit (later iterations overwrite earlier ones). -/
def findEntryExit (deals : List Deal) (ticket : Int) : Option Deal × Option Deal :=
  deals.foldl (feeStep ticket) (none, none)

/-- `AccurateHistoryFetcher._fetch_from_deals`.  `deals` is the driver
result of `history_deals_get(now - 30min, now)`, `olderDeals` of
`history_deals_get(now - 7d, now - 30min)`, `orders1h` of the 1-hour
order query made by `_get_sl_tp_from_orders`. -/
def fetchFromDeals (deals olderDeals : List Deal) (orders1h : List Order)
    (ticket : Int) : Option TradeData :=
  if deals.isEmpty then none
  else
    let scanned : Option Deal × Option Deal := findEntryExit deals ticket
    match scanned.2 with
    | none => none
    | some exitDeal =>
      let entryDeal : Option Deal :=
        match scanned.1 with
        | some e => some e
        | none => olderDeals.find? (fun d => d.position_id == ticket && d.entry == DealEntry.IN)
      let base : TradeData :=
        { source := "history_deals"
          accuracy := "100%"
          ticket := ticket
          symbol := some exitDeal.symbol
          volume := some exitDeal.volume
          exit_price := exitDeal.price
          exit_time := exitDeal.time
          profit := exitDeal.profit
          swap := exitDeal.swap
          commission := exitDeal.commission }
      let withEntry : TradeData :=
        match entryDeal with
        | none => base
        | some e =>
          { base with
              entry_price := some e.price
              entry_time := some e.time
              commission := base.commission + e.commission
              side := some (if e.dtype == DealType.BUY then "buy" else "sell") }
      let slTp := getSlTpFromOrders orders1h ticket
      some { withEntry with sl := some slTp.1, tp := some slTp.2 }

/-- `AccurateHistoryFetcher._fetch_from_orders`.  `orders` is the driver
result of `history_orders_get(now - 30min, now)` and `deals` of
`history_deals_get(now - 30min, now)` (requeried inside the loop). -/
def fetchFromOrders (orders : List Order) (deals : List Deal)
    (ticket : Int) : Option TradeData :=
  if orders.isEmpty then none
  else
    match orders.find? (fun o => o.position_id == ticket) with
    | none => none
    | some order =>
      let matching := deals.filter (fun d => d.position_id == ticket)
      some
        { source := "history_orders"
          accuracy := "95-100%"
          ticket := ticket
          exit_price := order.price_current
          exit_time := order.time_done
          profit := (matching.map Deal.profit).sum
          commission := (matching.map Deal.commission).sum
          swap := (matching.map Deal.swap).sum
          sl := some (if 0 < order.sl then some order.sl else none)
          tp := some (if 0 < order.tp then some order.tp else none) }

/-- Result of one run of `get_closed_position_data`: the returned value,
the sequence of backoff sleeps performed (seconds), and the number of
attempts made. -/
structure FetchRun where
  result : Option TradeData
  sleeps : List ℚ
  attempts : ℕ
deriving DecidableEq, Repr

/-- The retry loop of `get_closed_position_data`, starting at attempt
number `attempt` with `fuel` loop iterations remaining.  `respD n`
(resp. `respO n`) is the result of `_fetch_from_deals`
(resp. `_fetch_from_orders`) on attempt `n`; both are tried in that
order on every attempt. -/
def getClosedPositionDataAux (respD respO : ℕ → Option TradeData) (maxRetries : ℕ) :
    ℕ → ℕ → FetchRun
  | _, 0 => ⟨none, [], 0⟩
  | attempt, fuel + 1 =>
    match respD attempt with
    | some d => ⟨some d, [], 1⟩
    | none =>
      match respO attempt with
      | some d => ⟨some d, [], 1⟩
      | none =>
        if attempt < maxRetries then
          let r := getClosedPositionDataAux respD respO maxRetries (attempt + 1) fuel
          ⟨r.result, (3 * attempt : ℚ) :: r.sleeps, r.attempts + 1⟩
        else ⟨none, [], 1⟩

/-- `AccurateHistoryFetcher.get_closed_position_data(ticket, max_retries)`:
attempts run for `attempt` in `1..max_retries`; each attempt tries the
deals source then the orders source and returns on the first success;
when both fail and `attempt < max_retries` it sleeps `3 * attempt`
seconds before the next attempt; after the loop it returns `None`. -/
def getClosedPositionData (respD respO : ℕ → Option TradeData) (maxRetries : ℕ) : FetchRun :=
  getClosedPositionDataAux respD respO maxRetries 1 maxRetries

/-- `PositionSnapshot.__init__`: the snapshot of an open position taken by
the worker (field `commission` is hard-coded to `0.0`). -/
structure PositionSnapshot where
  ticket : Int
  symbol : String
  type : String
  volume : ℚ
  price_open : ℚ
  price_current : ℚ
  sl : ℚ
  tp : ℚ
  profit : ℚ
  swap : ℚ
  commission : ℚ
  time : ℚ
  last_seen : ℚ
deriving DecidableEq, Repr

/-- `PositionSnapshot(position)` built from a raw driver position at
wall-clock time `now` (`last_seen = datetime.now()`). -/
def PositionSnapshot.ofPosition (now : ℚ) (p : Position) : PositionSnapshot where
  ticket := p.ticket
  symbol := p.symbol
  type := if p.ptype == PosType.BUY then "buy" else "sell"
  volume := p.volume
  price_open := p.price_open
  price_current := p.price_current
  sl := p.sl
  tp := p.tp
  profit := p.profit
  swap := p.swap
  commission := 0
  time := p.time
  last_seen := now

/-- One element of the formatted positions list written to the cache by
`_process_request` (the `time` field, an ISO string in the source, is
kept as the underlying instant). -/
structure FormattedPosition where
  ticket : Int
  symbol : String
  type : String
  volume : ℚ
  price_open : ℚ
  price_current : ℚ
  sl : Option ℚ
  tp : Option ℚ
  profit : ℚ
  swap : ℚ
  time : ℚ
deriving DecidableEq, Repr

/-- The cache-entry dict `{positions, timestamp}`. -/
structure CacheEntry where
  positions : List FormattedPosition
  timestamp : ℚ
deriving DecidableEq, Repr

/-- The formatting of one snapshot in `_process_request` (sl/tp zero
normalized to `None`). -/
def formatPosition (s : PositionSnapshot) : FormattedPosition where
  ticket := s.ticket
  symbol := s.symbol
  type := s.type
  volume := s.volume
  price_open := s.price_open
  price_current := s.price_current
  sl := if 0 < s.sl then some s.sl else none
  tp := if 0 < s.tp then some s.tp else none
  profit := s.profit
  swap := s.swap
  time := s.time

/-- The complete trade dict built by `_handle_closed_position` (risk
metric fields are added later by `_calculate_risk_metrics`).  Fields the
risk calculator reads with `.get` and that can be missing or `None` in a
general dict are `Option`. -/
structure TradeRecord where
  user_id : String
  account_id : Option String
  external_trade_id : String
  symbol : String
  side : String
  volume : Option ℚ
  entry_price : Option ℚ
  entry_time : ℚ
  exit_price : ℚ
  exit_time : ℚ
  gross_pnl : Option ℚ
  commission : ℚ
  swap : ℚ
  net_pnl : ℚ
  stop_loss : Option ℚ
  take_profit : Option ℚ
  status : String
  source : String
  accuracy : String
  risk_amount : Option ℚ := none
  r_multiple : Option ℚ := none
  risk_reward : Option ℚ := none
deriving DecidableEq, Repr

/-- The `trade_data` dict literal of `_handle_closed_position` (lines
401-432): fetcher data merged with the prior snapshot as fallback for
missing keys.  For `stop_loss`/`take_profit` the fallback
`snapshot.sl if snapshot.sl > 0 else None` applies only when the `sl`
key is absent from the fetcher dict (`data.get`); a present key with
value `None` stays `None`. -/
def buildTradeRecord (user_id : String) (account_id : Option String) (ticket : Int)
    (snapshot : PositionSnapshot) (data : TradeData) : TradeRecord where
  user_id := user_id
  account_id := account_id
  external_trade_id := "mt5_" ++ toString ticket
  symbol := data.symbol.getD snapshot.symbol
  side := data.side.getD snapshot.type
  volume := some (data.volume.getD snapshot.volume)
  entry_price := some (data.entry_price.getD snapshot.price_open)
  entry_time := data.entry_time.getD snapshot.time
  exit_price := data.exit_price
  exit_time := data.exit_time
  gross_pnl := some data.profit
  commission := data.commission
  swap := data.swap
  net_pnl := data.profit + data.commission + data.swap
  stop_loss :=
    match data.sl with
    | some v => v
    | none => if 0 < snapshot.sl then some snapshot.sl else none
  take_profit :=
    match data.tp with
    | some v => v
    | none => if 0 < snapshot.tp then some snapshot.tp else none
  status := "closed"
  source := data.source
  accuracy := data.accuracy

/-- Python string containment `pat in s`. -/
def strIn (pat s : String) : Bool := decide (pat.toList <:+: s.toList)

/-- Python truthiness of an optional float: `None` and `0.0` are falsy. -/
def pyTruthy : Option ℚ → Bool
  | none => false
  | some x => x != 0

/-- `SmartQueueManager._calculate_risk_metrics`, as a pure function on the
trade record.  The guard is
`if not all([entry_price, sl, volume]) or sl == 0: return` (Python
truthiness: `None` and `0.0` both fail `all`).  Divisions mirror the
source: when `pips_risked` is zero the `risk_reward` division raises
`ZeroDivisionError`, which the `except` swallows after `risk_amount`
(and possibly `r_multiple`) were already assigned. -/
def calculateRiskMetrics (r : TradeRecord) : TradeRecord :=
  if pyTruthy r.entry_price && pyTruthy r.stop_loss && pyTruthy r.volume then
    match r.entry_price, r.stop_loss, r.volume with
    | some e, some s, some v =>
      let pip : ℚ := if strIn "JPY" r.symbol then 1 / 100 else 1 / 10000
      let pips_risked : ℚ := |e - s| / pip
      let risk_amount : ℚ := pips_risked * v * 10
      let r1 := { r with risk_amount := some risk_amount }
      let r2 :=
        match r.gross_pnl with
        | some g => if 0 < risk_amount then { r1 with r_multiple := some (g / risk_amount) } else r1
        | none => r1
      match r.take_profit with
      | some t =>
        if t != 0 && 0 < t then
          if pips_risked = 0 then r2
          else { r2 with risk_reward := some (|t - e| / pip / pips_risked) }
        else r2
      | none => r2
    | _, _, _ => r
  else r

/-- A queued poll request (the `request` dict of `get_positions`; the
callback is not part of the data compared here). -/
structure QueuedRequest where
  user_id : String
  login : Int
  password : String
  server : String
  account_id : Option String
deriving DecidableEq, Repr

/-- Outcome of an enqueue step on `asyncio.Queue(maxsize=100)`. -/
inductive PutOutcome
  | enqueued (q : List QueuedRequest)
  | suspended
  | failed
deriving DecidableEq, Repr

/-- `await self.request_queue.put(request)` on `asyncio.Queue(maxsize=100)`
(line 531): when a slot is free the item is appended; when the queue is
full the coroutine suspends until space frees — it neither raises nor
drops the item.  (`failed` is the outcome of the non-blocking
`put_nowait`, which raises `QueueFull`; the code does not use it.) -/
def queuePut (q : List QueuedRequest) (r : QueuedRequest) : PutOutcome :=
  if q.length < 100 then .enqueued (q ++ [r]) else .suspended

/-- `self.request_queue.put_nowait(request)` on the same queue: appends
when a slot is free, raises `QueueFull` when full.  Modelled for
comparison with the spec, which describes a failing enqueue. -/
def queuePutNowait (q : List QueuedRequest) (r : QueuedRequest) : PutOutcome :=
  if q.length < 100 then .enqueued (q ++ [r]) else .failed

/-- `self.cache_duration` (seconds). -/
def cache_duration : ℚ := 2

/-- Outcome of `get_positions`: whether a request was enqueued and the
returned positions list. -/
structure GetPosOutcome where
  enqueued : Bool
  positions : List FormattedPosition
deriving DecidableEq, Repr

/-- The cache-wait loop of `get_positions` (lines 539-554): at tick `i`
(one tick per 100 ms sleep) the caller re-reads the cache; `obs i` is
the cache entry for the user observed at tick `i` and `nows i` the
wall-clock time of that check.  `rem` is the number of checks remaining
before the 10 s ceiling (the loop makes 100 checks in exact
arithmetic).  A fresh entry (`age < cache_duration`) is returned at
once; exhaustion returns the empty list. -/
def cacheWaitLoop (obs : ℕ → Option CacheEntry) (nows : ℕ → ℚ) :
    ℕ → ℕ → List FormattedPosition
  | _, 0 => []
  | i, rem + 1 =>
    match obs i with
    | some c =>
      if nows i - c.timestamp < cache_duration then c.positions
      else cacheWaitLoop obs nows (i + 1) rem
    | none => cacheWaitLoop obs nows (i + 1) rem

/-- `SmartQueueManager.get_positions` for one caller.  `entryCache` is the
cache entry for the user at the initial check, taken at time `now0`;
`obs`/`nows` describe the cache observations of the wait loop (tick 1
is the first check after the enqueue).  The enqueue itself is assumed
to find queue space (the full-queue behavior is `queuePut`). -/
def get_positions (entryCache : Option CacheEntry) (now0 : ℚ)
    (obs : ℕ → Option CacheEntry) (nows : ℕ → ℚ) : GetPosOutcome :=
  match entryCache with
  | some c =>
    if now0 - c.timestamp < cache_duration then ⟨false, c.positions⟩
    else ⟨true, cacheWaitLoop obs nows 1 100⟩
  | none => ⟨true, cacheWaitLoop obs nows 1 100⟩

/-- The mutable state of `SmartQueueManager` relevant to request
processing, as association lists keyed by `user_id`. -/
structure ManagerState where
  cache : List (String × CacheEntry)
  position_snapshots : List (String × List (Int × PositionSnapshot))
deriving DecidableEq, Repr

/-- Assignment `m[k] = v` on a dict modelled as an association list:
replace the binding when the key is present, append otherwise. -/
def alInsert {β : Type} (k : String) (v : β) : List (String × β) → List (String × β)
  | [] => [(k, v)]
  | (k', v') :: rest => if k' == k then (k, v) :: rest else (k', v') :: alInsert k v rest

/-- The environment of one `_process_request` run: outcomes of the driver
calls and, for each closed ticket, the result of
`get_closed_position_data` (`fetch`). -/
structure PollEnv where
  initOk : Bool
  loginOk : Bool
  positions : List Position
  fetch : Int → Option TradeData
  now : ℚ

/-- `SmartQueueManager._process_request` (and the `_handle_closed_position`
calls it makes), returning the new manager state and the list of trade
records passed to the `on_trade_closed` callback this cycle.  On init or
login failure the request is aborted with the state unchanged.
Otherwise: closed tickets are the previous snapshot keys absent from the
current positions; each closed ticket whose fetch succeeds is emitted
(after risk enrichment); the user's snapshot map is then replaced by the
current positions and the cache entry rewritten. -/
def processRequest (st : ManagerState) (user_id : String) (account_id : Option String)
    (env : PollEnv) : ManagerState × List TradeRecord :=
  if !env.initOk then (st, [])
  else if !env.loginOk then (st, [])
  else
    let current : List (Int × PositionSnapshot) :=
      env.positions.map (fun p => (p.ticket, PositionSnapshot.ofPosition env.now p))
    let currentTickets : List Int := env.positions.map Position.ticket
    let previous : List (Int × PositionSnapshot) :=
      (st.position_snapshots.lookup user_id).getD []
    let closed := previous.filter (fun pr => !(currentTickets.contains pr.1))
    let emitted := closed.filterMap (fun pr =>
      (env.fetch pr.1).map (fun d =>
        calculateRiskMetrics (buildTradeRecord user_id account_id pr.1 pr.2 d)))
    let newSnapshots := alInsert user_id current st.position_snapshots
    let formatted := current.map (fun pr => formatPosition pr.2)
    let newCache := alInsert user_id ⟨formatted, env.now⟩ st.cache
    (⟨newCache, newSnapshots⟩, emitted)

/-- Concrete snapshot used in witnesses: an open EURUSD position with
ticket 1 and no stop-loss or take-profit recorded. -/
def snapC1 : PositionSnapshot :=
  ⟨1, "EURUSD", "buy", 1, 1, 1, 0, 0, 0, 0, 0, 0, 0⟩

/-- Concrete fetcher result used in witnesses. -/
def dataC4 : TradeData :=
  { source := "history_deals", accuracy := "100%", ticket := 1,
    exit_price := 2, exit_time := 3, profit := 5, swap := 1, commission := -1 }

/-- Environment in which ticket 1 has closed and the fetch succeeds. -/
def envC4 : PollEnv :=
  ⟨true, true, [], fun t => if t == 1 then some dataC4 else none, 0⟩

/-- Environment in which ticket 1 has closed and every fetch fails. -/
def envFail : PollEnv := ⟨true, true, [], fun _ => none, 0⟩

/-- Manager state in which user `u` has exactly ticket 1 in its snapshot
map. -/
def stOne : ManagerState := ⟨[], [("u", [(1, snapC1)])]⟩

/-- Trade record whose entry_price is present but equal to `0.0` (with
stop_loss and volume present and nonzero). -/
def recC7 : TradeRecord :=
  { user_id := "u", account_id := none, external_trade_id := "mt5_1", symbol := "EURUSD",
    side := "buy", volume := some 1, entry_price := some 0, entry_time := 0, exit_price := 1,
    exit_time := 1, gross_pnl := some 10, commission := 0, swap := 0, net_pnl := 10,
    stop_loss := some 1, take_profit := none, status := "closed", source := "history_deals",
    accuracy := "100%" }

/-- Trade record with all risk inputs present and nonzero, used as the C7
witness input. -/
def recW7 : TradeRecord :=
  { user_id := "u", account_id := none, external_trade_id := "mt5_1", symbol := "EURUSD",
    side := "buy", volume := some 1, entry_price := some 1, entry_time := 0, exit_price := 2,
    exit_time := 1, gross_pnl := some 5, commission := 0, swap := 0, net_pnl := 5,
    stop_loss := some 2, take_profit := some 3, status := "closed",
    source := "history_deals", accuracy := "100%" }

/-- Concrete exit deal used in the C10 witness. -/
def dealOutW : Deal := ⟨1, DealEntry.OUT, DealType.SELL, "EURUSD", 1, 2, 3, 10, 0, -1⟩

/-- The fetcher result for `dealOutW` with empty older history and an
empty 1-hour order scan. -/
def tdC10 : TradeData :=
  { source := "history_deals", accuracy := "100%", ticket := 1, symbol := some "EURUSD",
    volume := some 1, exit_price := 2, exit_time := 3, profit := 10, swap := 0,
    commission := -1, sl := some none, tp := some none }

/-- The risk calculator only writes the three risk fields: every other
field of the record is unchanged. -/
theorem calculateRiskMetrics_preserves (r : TradeRecord) :
    (calculateRiskMetrics r).user_id = r.user_id ∧
    (calculateRiskMetrics r).gross_pnl = r.gross_pnl ∧
    (calculateRiskMetrics r).commission = r.commission ∧
    (calculateRiskMetrics r).swap = r.swap ∧
    (calculateRiskMetrics r).net_pnl = r.net_pnl ∧
    (calculateRiskMetrics r).symbol = r.symbol ∧
    (calculateRiskMetrics r).stop_loss = r.stop_loss ∧
    (calculateRiskMetrics r).take_profit = r.take_profit := by
  unfold calculateRiskMetrics
  repeat' split
  all_goals simp [apply_ite]

/-- Claim C9: when terminal initialization or login fails, the poll request
is aborted with no cache update, no snapshot change and no callback:
the manager state is returned unchanged and nothing is emitted. -/
theorem C9_abort_preserves_state (st : ManagerState) (u : String) (a : Option String)
    (env : PollEnv) (h : env.initOk = false ∨ env.loginOk = false) :
    processRequest st u a env = (st, []) := by
  cases hi : env.initOk with
  | false => simp [processRequest, hi]
  | true =>
    rcases h with h | h
    · rw [hi] at h; exact absurd h (by simp)
    · simp [processRequest, hi, h]

/-- Witness for C9 at a concrete aborted request. -/
theorem C9_witness :
    processRequest ⟨[], []⟩ "u" none ⟨false, true, [], fun _ => none, 0⟩ = (⟨[], []⟩, []) :=
  C9_abort_preserves_state _ _ _ _ (Or.inl rfl)

/-- Claim C1 (evaluation at the failing input): user `u` holds ticket 1 in
its snapshot map, the current positions are empty (ticket 1 closed) and
`get_closed_position_data` returns `None`.  After the cycle the callback
was not invoked (nothing emitted) and the snapshot map for `u` is the
empty map: the failed ticket has been dropped, not retained, because
`_process_request` replaces the whole map with the current positions. -/
theorem C1_failed_fetch_ticket_dropped :
    (processRequest stOne "u" none envFail).2 = [] ∧
    (processRequest stOne "u" none envFail).1.position_snapshots.lookup "u" = some [] := by
  constructor <;> rfl

/-- Counterexample to claim C2 as stated: with the queue already holding
100 requests, `await request_queue.put(request)` suspends the caller
until a slot frees; the enqueue does not fail. -/
theorem C2_counterexample :
    queuePut (List.replicate 100 ⟨"u", 1, "p", "s", none⟩) ⟨"u", 1, "p", "s", none⟩ =
      PutOutcome.suspended ∧
    queuePut (List.replicate 100 ⟨"u", 1, "p", "s", none⟩) ⟨"u", 1, "p", "s", none⟩ ≠
      queuePutNowait (List.replicate 100 ⟨"u", 1, "p", "s", none⟩) ⟨"u", 1, "p", "s", none⟩ := by
  constructor
  · rfl
  · decide

/-- Claim C2 (amended): when the queue already holds at least 100 pending
requests, a cache-missing caller's enqueue suspends the caller until
space frees — it does not fail and the request is not dropped; with a
free slot the request is appended to the queue. -/
theorem C2_full_queue_put_suspends (q : List QueuedRequest) (r : QueuedRequest) :
    (100 ≤ q.length → queuePut q r = PutOutcome.suspended) ∧
    (q.length < 100 → queuePut q r = PutOutcome.enqueued (q ++ [r])) := by
  constructor <;> intro h
  · have hn : ¬q.length < 100 := by omega
    simp [queuePut, hn]
  · simp [queuePut, h]

/-- Witness for the amended C2 at a concrete full queue. -/
theorem C2_witness :
    queuePut (List.replicate 100 ⟨"u", 1, "p", "s", none⟩) ⟨"u", 1, "p", "s", none⟩ =
      PutOutcome.suspended :=
  (C2_full_queue_put_suspends _ _).1 (by simp)

/-- Claim C4: every trade record emitted by a poll cycle has
`net_pnl = gross_pnl + commission + swap` exactly, with those three
values taken unchanged from the fetcher result. -/
theorem C4_net_pnl_exact (st : ManagerState) (u : String) (a : Option String)
    (env : PollEnv) (tr : TradeRecord) (h : tr ∈ (processRequest st u a env).2) :
    ∃ ticket data, env.fetch ticket = some data ∧
      tr.gross_pnl = some data.profit ∧
      tr.commission = data.commission ∧
      tr.swap = data.swap ∧
      tr.net_pnl = data.profit + data.commission + data.swap := by
  cases hi : env.initOk with
  | false => rw [processRequest] at h; simp [hi] at h
  | true =>
    cases hl : env.loginOk with
    | false => rw [processRequest] at h; simp [hi, hl] at h
    | true =>
      rw [processRequest] at h
      simp only [hi, hl, Bool.not_true, Bool.false_eq_true, if_false, List.mem_filterMap,
        List.mem_filter, Option.map_eq_some'] at h
      obtain ⟨pr, _, d, hd, htr⟩ := h
      refine ⟨pr.1, d, hd, ?_⟩
      subst htr
      have hp := calculateRiskMetrics_preserves (buildTradeRecord u a pr.1 pr.2 d)
      exact ⟨hp.2.1.trans rfl, hp.2.2.1.trans rfl, hp.2.2.2.1.trans rfl,
        hp.2.2.2.2.1.trans rfl⟩

/-- Witness for C4 at a concrete emitted record. -/
theorem C4_witness :
    ∃ ticket data, envC4.fetch ticket = some data ∧
      (calculateRiskMetrics (buildTradeRecord "u" none 1 snapC1 dataC4)).gross_pnl =
        some data.profit ∧
      (calculateRiskMetrics (buildTradeRecord "u" none 1 snapC1 dataC4)).commission =
        data.commission ∧
      (calculateRiskMetrics (buildTradeRecord "u" none 1 snapC1 dataC4)).swap = data.swap ∧
      (calculateRiskMetrics (buildTradeRecord "u" none 1 snapC1 dataC4)).net_pnl =
        data.profit + data.commission + data.swap :=
  C4_net_pnl_exact stOne "u" none envC4 _ (by
    have hlist : (processRequest stOne "u" none envC4).2 =
        [calculateRiskMetrics (buildTradeRecord "u" none 1 snapC1 dataC4)] := rfl
    rw [hlist]
    exact List.mem_singleton_self _)

/-- Claim C6: when the orders fallback finds an order with matching
`position_id` in the 30-minute window, the result takes `exit_price`
from `order.price_current`, `exit_time` from `order.time_done`, sl/tp
from the order with zero normalized to unset, sums
profit/commission/swap over the deals of that ticket in the same window
(0.0 each when no deals are returned), and is tagged source
`history_orders`, accuracy `95-100%`. -/
theorem C6_fetch_from_orders (orders : List Order) (deals : List Deal) (ticket : Int)
    (o : Order) (h : orders.find? (fun x => x.position_id == ticket) = some o) :
    ∃ td, fetchFromOrders orders deals ticket = some td ∧
      td.source = "history_orders" ∧ td.accuracy = "95-100%" ∧
      td.exit_price = o.price_current ∧ td.exit_time = o.time_done ∧
      td.sl = some (if 0 < o.sl then some o.sl else none) ∧
      td.tp = some (if 0 < o.tp then some o.tp else none) ∧
      td.profit = ((deals.filter (fun d => d.position_id == ticket)).map Deal.profit).sum ∧
      td.commission =
        ((deals.filter (fun d => d.position_id == ticket)).map Deal.commission).sum ∧
      td.swap = ((deals.filter (fun d => d.position_id == ticket)).map Deal.swap).sum ∧
      (deals = [] → td.profit = 0 ∧ td.commission = 0 ∧ td.swap = 0) := by
  have hne : orders.isEmpty = false := by
    cases orders with
    | nil => simp at h
    | cons a l => rfl
  simp only [fetchFromOrders, hne, Bool.false_eq_true, if_false, h]
  refine ⟨_, rfl, rfl, rfl, rfl, rfl, rfl, rfl, rfl, rfl, rfl, ?_⟩
  rintro rfl
  simp

/-- Witness for C6 at a concrete order with no deals in the window. -/
theorem C6_witness :
    ∃ td, fetchFromOrders [⟨1, 5, 6, 0, 7⟩] [] 1 = some td ∧
      td.source = "history_orders" ∧ td.accuracy = "95-100%" ∧
      td.exit_price = (5 : ℚ) ∧ td.exit_time = (6 : ℚ) ∧
      td.sl = some (if (0 : ℚ) < 0 then some 0 else none) ∧
      td.tp = some (if (0 : ℚ) < 7 then some 7 else none) ∧
      td.profit = ((([] : List Deal).filter (fun d => d.position_id == 1)).map Deal.profit).sum ∧
      td.commission =
        ((([] : List Deal).filter (fun d => d.position_id == 1)).map Deal.commission).sum ∧
      td.swap = ((([] : List Deal).filter (fun d => d.position_id == 1)).map Deal.swap).sum ∧
      (([] : List Deal) = [] → td.profit = 0 ∧ td.commission = 0 ∧ td.swap = 0) :=
  C6_fetch_from_orders [⟨1, 5, 6, 0, 7⟩] [] 1 ⟨1, 5, 6, 0, 7⟩ rfl

/-- Claim C10: a successful deals-source result always carries the `sl`
and `tp` keys, holding exactly what the 1-hour `history_orders` scan
produced; consequently the record built by `_handle_closed_position`
takes `stop_loss`/`take_profit` from that scan for every prior snapshot
— the snapshot's own sl/tp are never used as a fallback — and when the
scan finds no order for the ticket both fields are unset. -/
theorem C10_sl_tp_never_from_snapshot (deals olderDeals : List Deal) (orders1h : List Order)
    (ticket : Int) (td : TradeData)
    (h : fetchFromDeals deals olderDeals orders1h ticket = some td) :
    td.sl = some (getSlTpFromOrders orders1h ticket).1 ∧
    td.tp = some (getSlTpFromOrders orders1h ticket).2 ∧
    (∀ (u : String) (a : Option String) (snapshot : PositionSnapshot),
      (buildTradeRecord u a ticket snapshot td).stop_loss =
        (getSlTpFromOrders orders1h ticket).1 ∧
      (buildTradeRecord u a ticket snapshot td).take_profit =
        (getSlTpFromOrders orders1h ticket).2) ∧
    ((∀ o ∈ orders1h, o.position_id ≠ ticket) →
      (getSlTpFromOrders orders1h ticket).1 = none ∧
      (getSlTpFromOrders orders1h ticket).2 = none) := by
  simp only [fetchFromDeals] at h
  split at h
  · exact absurd h (by simp)
  · split at h
    · exact absurd h (by simp)
    · obtain rfl := Option.some.inj h
      refine ⟨rfl, rfl, fun u a snapshot => ⟨rfl, rfl⟩, fun hno => ?_⟩
      have hfind : orders1h.find? (fun o => o.position_id == ticket) = none := by
        rw [List.find?_eq_none]
        intro x hx
        simp [hno x hx]
      simp [getSlTpFromOrders, hfind]

/-- Witness for C10: even though the prior snapshot holds nonzero sl/tp,
the record takes stop_loss/take_profit from the (empty) order scan. -/
theorem C10_witness :
    (buildTradeRecord "u" none 1 ⟨1, "EURUSD", "buy", 1, 1, 1, 5, 6, 0, 0, 0, 0, 0⟩
        tdC10).stop_loss = (getSlTpFromOrders [] 1).1 ∧
    (buildTradeRecord "u" none 1 ⟨1, "EURUSD", "buy", 1, 1, 1, 5, 6, 0, 0, 0, 0, 0⟩
        tdC10).take_profit = (getSlTpFromOrders [] 1).2 :=
  (C10_sl_tp_never_from_snapshot [dealOutW] [] [] 1 tdC10 rfl).2.2.1 "u" none _

/-- The exit component of one scan step keeps the last matching `OUT`
deal. -/
theorem feeStep_snd (ticket : Int) (p : Option Deal × Option Deal) (d : Deal) :
    (feeStep ticket p d).2 =
      if d.position_id = ticket ∧ d.entry = DealEntry.OUT then some d else p.2 := by
  unfold feeStep
  by_cases h1 : d.position_id = ticket
  · by_cases h2 : d.entry = DealEntry.IN
    · simp [h1, h2]
    · by_cases h3 : d.entry = DealEntry.OUT <;> simp [h1, h2, h3]
  · simp [h1]

/-- The entry component of one scan step keeps the last matching `IN`
deal. -/
theorem feeStep_fst (ticket : Int) (p : Option Deal × Option Deal) (d : Deal) :
    (feeStep ticket p d).1 =
      if d.position_id = ticket ∧ d.entry = DealEntry.IN then some d else p.1 := by
  unfold feeStep
  by_cases h1 : d.position_id = ticket
  · by_cases h2 : d.entry = DealEntry.IN
    · simp [h1, h2]
    · by_cases h3 : d.entry = DealEntry.OUT <;> simp [h1, h2, h3]
  · simp [h1]

/-- The exit component of the scan is a last-match fold. -/
theorem foldl_feeStep_snd (ticket : Int) :
    ∀ (deals : List Deal) (init : Option Deal × Option Deal),
      (deals.foldl (feeStep ticket) init).2 =
        deals.foldl
          (fun acc d =>
            if d.position_id = ticket ∧ d.entry = DealEntry.OUT then some d else acc)
          init.2 := by
  intro deals
  induction deals with
  | nil => intro init; rfl
  | cons a l ih =>
    intro init
    rw [List.foldl_cons, List.foldl_cons, ih, feeStep_snd]

/-- The entry component of the scan is a last-match fold. -/
theorem foldl_feeStep_fst (ticket : Int) :
    ∀ (deals : List Deal) (init : Option Deal × Option Deal),
      (deals.foldl (feeStep ticket) init).1 =
        deals.foldl
          (fun acc d =>
            if d.position_id = ticket ∧ d.entry = DealEntry.IN then some d else acc)
          init.1 := by
  intro deals
  induction deals with
  | nil => intro init; rfl
  | cons a l ih =>
    intro init
    rw [List.foldl_cons, List.foldl_cons, ih, feeStep_fst]

/-- A last-match fold yields `none` exactly when it started from `none`
and no element matches. -/
theorem foldl_lastP_eq_none (P : Deal → Prop) [DecidablePred P] :
    ∀ (l : List Deal) (init : Option Deal),
      l.foldl (fun acc d => if P d then some d else acc) init = none ↔
        init = none ∧ ∀ d ∈ l, ¬P d := by
  intro l
  induction l with
  | nil => simp
  | cons a t ih =>
    intro init
    rw [List.foldl_cons, ih]
    by_cases h : P a <;> simp [h]

/-- A successful last-match fold returns a matching element of the list,
unless it merely propagated its initial value. -/
theorem foldl_lastP_mem (P : Deal → Prop) [DecidablePred P] :
    ∀ (l : List Deal) (init : Option Deal) (x : Deal),
      l.foldl (fun acc d => if P d then some d else acc) init = some x →
        (x ∈ l ∧ P x) ∨ init = some x := by
  intro l
  induction l with
  | nil => intro init x h; exact Or.inr h
  | cons a t ih =>
    intro init x h
    rw [List.foldl_cons] at h
    rcases ih _ _ h with ⟨hm, hp⟩ | he
    · exact Or.inl ⟨List.mem_cons_of_mem _ hm, hp⟩
    · by_cases hpa : P a
      · rw [if_pos hpa] at he
        obtain rfl := Option.some.inj he
        exact Or.inl ⟨List.mem_cons_self _ _, hpa⟩
      · rw [if_neg hpa] at he
        exact Or.inr he

/-- The scan finds no exit deal exactly when no deal of the window is an
`OUT` deal for the ticket. -/
theorem findEntryExit_snd_none (deals : List Deal) (ticket : Int) :
    (findEntryExit deals ticket).2 = none ↔
      ∀ d ∈ deals, ¬(d.position_id = ticket ∧ d.entry = DealEntry.OUT) := by
  rw [findEntryExit, foldl_feeStep_snd, foldl_lastP_eq_none]
  simp

/-- The scan finds no entry deal exactly when no deal of the window is an
`IN` deal for the ticket. -/
theorem findEntryExit_fst_none (deals : List Deal) (ticket : Int) :
    (findEntryExit deals ticket).1 = none ↔
      ∀ d ∈ deals, ¬(d.position_id = ticket ∧ d.entry = DealEntry.IN) := by
  rw [findEntryExit, foldl_feeStep_fst, foldl_lastP_eq_none]
  simp

/-- The exit deal selected by the scan is an `OUT` deal of the window for
the ticket. -/
theorem findEntryExit_snd_some (deals : List Deal) (ticket : Int) (ex : Deal)
    (h : (findEntryExit deals ticket).2 = some ex) :
    ex ∈ deals ∧ ex.position_id = ticket ∧ ex.entry = DealEntry.OUT := by
  rw [findEntryExit, foldl_feeStep_snd] at h
  rcases foldl_lastP_mem _ _ _ _ h with ⟨hm, hp1, hp2⟩ | he
  · exact ⟨hm, hp1, hp2⟩
  · exact absurd he (by simp)

/-- Claim C5: the deals source fails when the 30-minute window has no
exit deal for the ticket; on success the result is tagged
`history_deals`/`100%` and built from an exit deal of the window
(symbol, volume, price, time, profit, swap, commission), the sl/tp keys
hold the 1-hour order-scan result, the entry deal found by the scan
(when any) contributes entry_price, entry_time, side and its commission,
and when the window has no entry deal the first entry-side deal of the
older window is used instead (no augmentation when that search also
fails). -/
theorem C5_fetch_from_deals (deals olderDeals : List Deal) (orders1h : List Order)
    (ticket : Int) :
    ((∀ d ∈ deals, ¬(d.position_id = ticket ∧ d.entry = DealEntry.OUT)) →
      fetchFromDeals deals olderDeals orders1h ticket = none) ∧
    (∀ td, fetchFromDeals deals olderDeals orders1h ticket = some td →
      td.source = "history_deals" ∧ td.accuracy = "100%" ∧
      ∃ ex, ex ∈ deals ∧ ex.position_id = ticket ∧ ex.entry = DealEntry.OUT ∧
        td.symbol = some ex.symbol ∧ td.volume = some ex.volume ∧
        td.exit_price = ex.price ∧ td.exit_time = ex.time ∧
        td.profit = ex.profit ∧ td.swap = ex.swap ∧
        td.sl = some (getSlTpFromOrders orders1h ticket).1 ∧
        td.tp = some (getSlTpFromOrders orders1h ticket).2 ∧
        (∀ e, (findEntryExit deals ticket).1 = some e →
          td.entry_price = some e.price ∧ td.entry_time = some e.time ∧
          td.commission = ex.commission + e.commission ∧
          td.side = some (if e.dtype == DealType.BUY then "buy" else "sell")) ∧
        ((∀ d ∈ deals, ¬(d.position_id = ticket ∧ d.entry = DealEntry.IN)) →
          match olderDeals.find? (fun d => d.position_id == ticket &&
              d.entry == DealEntry.IN) with
          | some e => td.entry_price = some e.price ∧ td.entry_time = some e.time ∧
              td.commission = ex.commission + e.commission ∧
              td.side = some (if e.dtype == DealType.BUY then "buy" else "sell")
          | none => td.commission = ex.commission ∧ td.entry_price = none ∧
              td.entry_time = none ∧ td.side = none)) := by
  constructor
  · intro hno
    have h2 : (findEntryExit deals ticket).2 = none :=
      (findEntryExit_snd_none _ _).mpr hno
    simp only [fetchFromDeals, h2]
    split <;> rfl
  · intro td h
    simp only [fetchFromDeals] at h
    by_cases hemp : deals.isEmpty = true
    · rw [if_pos hemp] at h
      exact absurd h (by simp)
    · rw [if_neg hemp] at h
      rcases hsnd : (findEntryExit deals ticket).2 with _ | ex
      · rw [hsnd] at h
        simp at h
      · simp only [hsnd] at h
        obtain ⟨hmem, hpid, hout⟩ := findEntryExit_snd_some deals ticket ex hsnd
        rcases hfst : (findEntryExit deals ticket).1 with _ | e0
        · simp only [hfst] at h
          rcases hfind : olderDeals.find?
              (fun d => d.position_id == ticket && d.entry == DealEntry.IN) with _ | e
          · simp only [hfind] at h
            obtain rfl := Option.some.inj h
            refine ⟨rfl, rfl, ex, hmem, hpid, hout, rfl, rfl, rfl, rfl, rfl, rfl, rfl, rfl,
              ?_, ?_⟩
            · intro e he
              exact Option.noConfusion he
            · intro _
              rw [hfind]
              exact ⟨rfl, rfl, rfl, rfl⟩
          · simp only [hfind] at h
            obtain rfl := Option.some.inj h
            refine ⟨rfl, rfl, ex, hmem, hpid, hout, rfl, rfl, rfl, rfl, rfl, rfl, rfl, rfl,
              ?_, ?_⟩
            · intro e1 he
              exact Option.noConfusion he
            · intro _
              rw [hfind]
              exact ⟨rfl, rfl, rfl, rfl⟩
        · simp only [hfst] at h
          obtain rfl := Option.some.inj h
          refine ⟨rfl, rfl, ex, hmem, hpid, hout, rfl, rfl, rfl, rfl, rfl, rfl, rfl, rfl,
            ?_, ?_⟩
          · intro e he
            obtain rfl := Option.some.inj he
            exact ⟨rfl, rfl, rfl, rfl⟩
          · intro hnoIn
            have h0 := (findEntryExit_fst_none deals ticket).mpr hnoIn
            rw [h0] at hfst
            exact Option.noConfusion hfst

/-- Witness for C5: a window holding only an entry-side deal for the
ticket makes the deals source fail. -/
theorem C5_witness :
    fetchFromDeals [⟨1, DealEntry.IN, DealType.BUY, "EURUSD", 1, 1, 1, 0, 0, 0⟩] [] [] 1 =
      none :=
  (C5_fetch_from_deals _ _ _ _).1 (by decide)

/-- Claim C3: with `max_retries = 3` the fetcher makes at most 3 attempts;
a successful run returns the first success, trying the deals source
before the orders source on each attempt, after sleeping `3 * m` seconds
for every fully failed earlier attempt `m`; when every attempt fails it
sleeps 3 s then 6 s and returns `None` after 3 attempts. -/
theorem C3_retry_backoff (respD respO : ℕ → Option TradeData) :
    (getClosedPositionData respD respO 3).attempts ≤ 3 ∧
    (∀ d, (getClosedPositionData respD respO 3).result = some d →
      ∃ n, n = (getClosedPositionData respD respO 3).attempts ∧ 1 ≤ n ∧ n ≤ 3 ∧
        (respD n = some d ∨ (respD n = none ∧ respO n = some d)) ∧
        (∀ m, 1 ≤ m → m < n → respD m = none ∧ respO m = none) ∧
        (getClosedPositionData respD respO 3).sleeps =
          (List.range (n - 1)).map (fun i => (3 : ℚ) * (i + 1))) ∧
    ((∀ n, 1 ≤ n → n ≤ 3 → respD n = none ∧ respO n = none) →
      getClosedPositionData respD respO 3 = ⟨none, [3, 6], 3⟩) := by
  rcases h1 : respD 1 with _ | d1
  · rcases h2 : respO 1 with _ | d1
    · rcases h3 : respD 2 with _ | d2
      · rcases h4 : respO 2 with _ | d2
        · rcases h5 : respD 3 with _ | d3
          · rcases h6 : respO 3 with _ | d3
            · have hrun : getClosedPositionData respD respO 3 = ⟨none, [3, 6], 3⟩ := by
                norm_num [getClosedPositionData, getClosedPositionDataAux, h1, h2, h3, h4,
                  h5, h6]
              refine ⟨by norm_num [hrun], ?_, fun _ => hrun⟩
              intro d hd
              rw [hrun] at hd
              exact Option.noConfusion hd
            · have hrun : getClosedPositionData respD respO 3 = ⟨some d3, [3, 6], 3⟩ := by
                norm_num [getClosedPositionData, getClosedPositionDataAux, h1, h2, h3, h4,
                  h5, h6]
              refine ⟨by norm_num [hrun], ?_, ?_⟩
              · intro d hd
                rw [hrun] at hd
                obtain rfl := Option.some.inj hd
                refine ⟨3, by rw [hrun], by norm_num, by norm_num,
                  Or.inr ⟨h5, h6⟩, ?_, by rw [hrun]; norm_num [List.range_succ]⟩
                intro m hm1 hm2
                interval_cases m
                · exact ⟨h1, h2⟩
                · exact ⟨h3, h4⟩
              · intro hall
                have hc := (hall 3 (by norm_num) (by norm_num)).2
                rw [h6] at hc
                exact Option.noConfusion hc
          · have hrun : getClosedPositionData respD respO 3 = ⟨some d3, [3, 6], 3⟩ := by
              norm_num [getClosedPositionData, getClosedPositionDataAux, h1, h2, h3, h4, h5]
            refine ⟨by norm_num [hrun], ?_, ?_⟩
            · intro d hd
              rw [hrun] at hd
              obtain rfl := Option.some.inj hd
              refine ⟨3, by rw [hrun], by norm_num, by norm_num,
                Or.inl h5, ?_, by rw [hrun]; norm_num [List.range_succ]⟩
              intro m hm1 hm2
              interval_cases m
              · exact ⟨h1, h2⟩
              · exact ⟨h3, h4⟩
            · intro hall
              have hc := (hall 3 (by norm_num) (by norm_num)).1
              rw [h5] at hc
              exact Option.noConfusion hc
        · have hrun : getClosedPositionData respD respO 3 = ⟨some d2, [3], 2⟩ := by
            norm_num [getClosedPositionData, getClosedPositionDataAux, h1, h2, h3, h4]
          refine ⟨by norm_num [hrun], ?_, ?_⟩
          · intro d hd
            rw [hrun] at hd
            obtain rfl := Option.some.inj hd
            refine ⟨2, by rw [hrun], by norm_num, by norm_num,
              Or.inr ⟨h3, h4⟩, ?_, by rw [hrun]; norm_num [List.range_succ]⟩
            intro m hm1 hm2
            interval_cases m
            exact ⟨h1, h2⟩
          · intro hall
            have hc := (hall 2 (by norm_num) (by norm_num)).2
            rw [h4] at hc
            exact Option.noConfusion hc
      · have hrun : getClosedPositionData respD respO 3 = ⟨some d2, [3], 2⟩ := by
          norm_num [getClosedPositionData, getClosedPositionDataAux, h1, h2, h3]
        refine ⟨by norm_num [hrun], ?_, ?_⟩
        · intro d hd
          rw [hrun] at hd
          obtain rfl := Option.some.inj hd
          refine ⟨2, by rw [hrun], by norm_num, by norm_num,
            Or.inl h3, ?_, by rw [hrun]; norm_num [List.range_succ]⟩
          intro m hm1 hm2
          interval_cases m
          exact ⟨h1, h2⟩
        · intro hall
          have hc := (hall 2 (by norm_num) (by norm_num)).1
          rw [h3] at hc
          exact Option.noConfusion hc
    · have hrun : getClosedPositionData respD respO 3 = ⟨some d1, [], 1⟩ := by
        norm_num [getClosedPositionData, getClosedPositionDataAux, h1, h2]
      refine ⟨by norm_num [hrun], ?_, ?_⟩
      · intro d hd
        rw [hrun] at hd
        obtain rfl := Option.some.inj hd
        refine ⟨1, by rw [hrun], by norm_num, by norm_num,
          Or.inr ⟨h1, h2⟩, ?_, by rw [hrun]; norm_num [List.range_succ]⟩
        intro m hm1 hm2
        omega
      · intro hall
        have hc := (hall 1 (by norm_num) (by norm_num)).2
        rw [h2] at hc
        exact Option.noConfusion hc
  · have hrun : getClosedPositionData respD respO 3 = ⟨some d1, [], 1⟩ := by
      norm_num [getClosedPositionData, getClosedPositionDataAux, h1]
    refine ⟨by norm_num [hrun], ?_, ?_⟩
    · intro d hd
      rw [hrun] at hd
      obtain rfl := Option.some.inj hd
      refine ⟨1, by rw [hrun], by norm_num, by norm_num,
        Or.inl h1, ?_, by rw [hrun]; norm_num [List.range_succ]⟩
      intro m hm1 hm2
      omega
    · intro hall
      have hc := (hall 1 (by norm_num) (by norm_num)).1
      rw [h1] at hc
      exact Option.noConfusion hc

/-- Witness for C3: when every attempt fails on both sources the run
sleeps 3 s and 6 s, makes 3 attempts and returns `None`. -/
theorem C3_witness :
    getClosedPositionData (fun _ => none) (fun _ => none) 3 = ⟨none, [3, 6], 3⟩ :=
  (C3_retry_backoff (fun _ => none) (fun _ => none)).2.2 (fun _ _ _ => ⟨rfl, rfl⟩)

/-- Counterexample to claim C7 as stated: `recC7` has entry_price,
stop_loss and volume all present and stop_loss ≠ 0, yet the calculator
leaves the record untouched (risk_amount is not set to
`|entry − sl| / pip · volume · 10`), because the guard also requires the
present values to be nonzero (`0.0` fails Python `all`). -/
theorem C7_counterexample :
    recC7.entry_price = some 0 ∧ recC7.stop_loss = some 1 ∧ recC7.volume = some 1 ∧
    recC7.stop_loss ≠ some 0 ∧
    calculateRiskMetrics recC7 = recC7 ∧
    (calculateRiskMetrics recC7).risk_amount ≠
      some ((|(0 : ℚ) - 1| / (1 / 10000)) * 1 * 10) := by
  refine ⟨rfl, rfl, rfl, by decide, rfl, by decide⟩

/-- Claim C7 (amended): the risk calculator is a pure enrichment; when
entry_price, stop_loss or volume is missing — or present but zero — the
record is returned unchanged; when all three are present and nonzero it
sets `risk_amount = (|entry_price − stop_loss| / pip_size) · volume · 10`
with pip_size 0.01 for symbols containing `JPY` and 0.0001 otherwise,
sets `r_multiple = gross_pnl / risk_amount` when `risk_amount > 0` and
gross_pnl is known (leaving it untouched when gross_pnl is unknown), and
sets `risk_reward = (|take_profit − entry_price| / pip_size) /
pips_risked` when take_profit is present and positive and
`entry_price ≠ stop_loss` (leaving it untouched when take_profit is
absent); the record is never failed. -/
theorem C7_risk_metrics (r : TradeRecord) :
    ((r.entry_price = none ∨ r.stop_loss = none ∨ r.volume = none ∨
        r.entry_price = some 0 ∨ r.stop_loss = some 0 ∨ r.volume = some 0) →
      calculateRiskMetrics r = r) ∧
    (∀ e s v : ℚ, r.entry_price = some e → r.stop_loss = some s → r.volume = some v →
      e ≠ 0 → s ≠ 0 → v ≠ 0 →
      ∀ pip pr ra : ℚ,
        pip = (if strIn "JPY" r.symbol then 1 / 100 else 1 / 10000) →
        pr = |e - s| / pip → ra = pr * v * 10 →
        (calculateRiskMetrics r).risk_amount = some ra ∧
        (∀ g, r.gross_pnl = some g → 0 < ra →
          (calculateRiskMetrics r).r_multiple = some (g / ra)) ∧
        (r.gross_pnl = none → (calculateRiskMetrics r).r_multiple = r.r_multiple) ∧
        (∀ t, r.take_profit = some t → 0 < t → e ≠ s →
          (calculateRiskMetrics r).risk_reward = some (|t - e| / pip / pr)) ∧
        (r.take_profit = none → (calculateRiskMetrics r).risk_reward = r.risk_reward)) := by
  constructor
  · intro h
    rcases h with h | h | h | h | h | h <;> simp [calculateRiskMetrics, pyTruthy, h]
  · intro e s v he hs hv hne hse hve pip pr ra hpip hpr hra
    subst hpip
    subst hpr
    subst hra
    have hguard : (pyTruthy (some e) && pyTruthy (some s) && pyTruthy (some v)) = true := by
      simp [pyTruthy, hne, hse, hve]
    cases hj : strIn "JPY" r.symbol
    · refine ⟨?_, ?_, ?_, ?_, ?_⟩
      · simp only [calculateRiskMetrics, he, hs, hv, hguard, eq_self_iff_true, if_true, hj,
          Bool.false_eq_true, if_false]
        rcases hg : r.gross_pnl with _ | g <;> rcases ht : r.take_profit with _ | t <;>
            simp only [hg, ht] <;> split_ifs <;> simp
      · intro g hg hpos
        simp only [Bool.false_eq_true, eq_self_iff_true, if_false, if_true] at hpos
        simp only [calculateRiskMetrics, he, hs, hv, hguard, eq_self_iff_true, if_true, hj,
          Bool.false_eq_true, if_false, hg]
        rcases ht : r.take_profit with _ | t <;> simp only [ht] <;> split_ifs <;>
            first
              | simp
              | exact absurd hpos (by assumption)
      · intro hg
        simp only [calculateRiskMetrics, he, hs, hv, hguard, eq_self_iff_true, if_true, hj,
          Bool.false_eq_true, if_false, hg]
        rcases ht : r.take_profit with _ | t <;> simp only [ht] <;> split_ifs <;> simp
      · intro t ht htpos hes
        simp only [calculateRiskMetrics, he, hs, hv, hguard, eq_self_iff_true, if_true, hj,
          Bool.false_eq_true, if_false, ht]
        rcases hg : r.gross_pnl with _ | g <;> simp only [hg] <;> split_ifs <;>
            first
              | (simp; done)
              | (exact absurd (show (t != 0 && decide (0 < t)) = true by
                  simp [htpos, htpos.ne']) (by assumption))
              | (exfalso
                 obtain h0 | h0 := div_eq_zero_iff.mp (by assumption)
                 exacts [hes (sub_eq_zero.mp (abs_eq_zero.mp h0)), by norm_num at h0])
      · intro ht
        simp only [calculateRiskMetrics, he, hs, hv, hguard, eq_self_iff_true, if_true, hj,
          Bool.false_eq_true, if_false, ht]
        rcases hg : r.gross_pnl with _ | g <;> simp only [hg] <;> split_ifs <;> simp
    · refine ⟨?_, ?_, ?_, ?_, ?_⟩
      · simp only [calculateRiskMetrics, he, hs, hv, hguard, eq_self_iff_true, if_true, hj,
          Bool.false_eq_true, if_false]
        rcases hg : r.gross_pnl with _ | g <;> rcases ht : r.take_profit with _ | t <;>
            simp only [hg, ht] <;> split_ifs <;> simp
      · intro g hg hpos
        simp only [Bool.false_eq_true, eq_self_iff_true, if_false, if_true] at hpos
        simp only [calculateRiskMetrics, he, hs, hv, hguard, eq_self_iff_true, if_true, hj,
          Bool.false_eq_true, if_false, hg]
        rcases ht : r.take_profit with _ | t <;> simp only [ht] <;> split_ifs <;>
            first
              | simp
              | exact absurd hpos (by assumption)
      · intro hg
        simp only [calculateRiskMetrics, he, hs, hv, hguard, eq_self_iff_true, if_true, hj,
          Bool.false_eq_true, if_false, hg]
        rcases ht : r.take_profit with _ | t <;> simp only [ht] <;> split_ifs <;> simp
      · intro t ht htpos hes
        simp only [calculateRiskMetrics, he, hs, hv, hguard, eq_self_iff_true, if_true, hj,
          Bool.false_eq_true, if_false, ht]
        rcases hg : r.gross_pnl with _ | g <;> simp only [hg] <;> split_ifs <;>
            first
              | (simp; done)
              | (exact absurd (show (t != 0 && decide (0 < t)) = true by
                  simp [htpos, htpos.ne']) (by assumption))
              | (exfalso
                 obtain h0 | h0 := div_eq_zero_iff.mp (by assumption)
                 exacts [hes (sub_eq_zero.mp (abs_eq_zero.mp h0)), by norm_num at h0])
      · intro ht
        simp only [calculateRiskMetrics, he, hs, hv, hguard, eq_self_iff_true, if_true, hj,
          Bool.false_eq_true, if_false, ht]
        rcases hg : r.gross_pnl with _ | g <;> simp only [hg] <;> split_ifs <;> simp

/-- Witness for the amended C7 at a concrete record: EURUSD trade with
entry 1, stop 2, volume 1, gross_pnl 5, take_profit 3. -/
theorem C7_witness :
    (calculateRiskMetrics recW7).risk_amount = some 100000 ∧
    (calculateRiskMetrics recW7).r_multiple = some (1 / 20000) ∧
    (calculateRiskMetrics recW7).risk_reward = some 2 := by
  have h := (C7_risk_metrics recW7).2 1 2 1 rfl rfl rfl (by norm_num) (by norm_num)
    (by norm_num) (1 / 10000) (|(1 : ℚ) - 2| / (1 / 10000))
    (|(1 : ℚ) - 2| / (1 / 10000) * 1 * 10) (by rfl) rfl rfl
  refine ⟨?_, ?_, ?_⟩
  · rw [h.1]
    norm_num
  · rw [h.2.1 5 rfl (by norm_num)]
    norm_num
  · rw [h.2.2.2.1 3 rfl (by norm_num) (by norm_num)]
    norm_num

/-- When no observed cache entry is fresh during the remaining ticks, the
wait loop ends with the empty list. -/
theorem cacheWaitLoop_timeout (obs : ℕ → Option CacheEntry) (nows : ℕ → ℚ) :
    ∀ (rem i : ℕ),
      (∀ k, i ≤ k → k < i + rem → ∀ c, obs k = some c →
        ¬(nows k - c.timestamp < cache_duration)) →
      cacheWaitLoop obs nows i rem = [] := by
  intro rem
  induction rem with
  | zero => intro i _; rfl
  | succ n ih =>
    intro i h
    cases ho : obs i with
    | none =>
      have hstep : cacheWaitLoop obs nows i (n + 1) = cacheWaitLoop obs nows (i + 1) n := by
        simp [cacheWaitLoop, ho]
      rw [hstep]
      exact ih (i + 1) (fun k hk1 hk2 c hc => h k (by omega) (by omega) c hc)
    | some c =>
      have hnf : ¬(nows i - c.timestamp < cache_duration) := h i (le_refl i) (by omega) c ho
      have hstep : cacheWaitLoop obs nows i (n + 1) = cacheWaitLoop obs nows (i + 1) n := by
        simp [cacheWaitLoop, ho, hnf]
      rw [hstep]
      exact ih (i + 1) (fun k hk1 hk2 c2 hc => h k (by omega) (by omega) c2 hc)

/-- The wait loop returns the positions of the first fresh cache entry it
observes. -/
theorem cacheWaitLoop_first_fresh (obs : ℕ → Option CacheEntry) (nows : ℕ → ℚ) :
    ∀ (rem i k : ℕ) (c : CacheEntry), i ≤ k → k < i + rem → obs k = some c →
      nows k - c.timestamp < cache_duration →
      (∀ j, i ≤ j → j < k → ∀ c2, obs j = some c2 →
        ¬(nows j - c2.timestamp < cache_duration)) →
      cacheWaitLoop obs nows i rem = c.positions := by
  intro rem
  induction rem with
  | zero =>
    intro i k c h1 h2 _ _ _
    exact absurd h2 (by omega)
  | succ n ih =>
    intro i k c h1 h2 h3 h4 h5
    rcases eq_or_lt_of_le h1 with rfl | hik
    · simp [cacheWaitLoop, h3, h4]
    · have hstep : cacheWaitLoop obs nows i (n + 1) = cacheWaitLoop obs nows (i + 1) n := by
        cases ho : obs i with
        | none => simp [cacheWaitLoop, ho]
        | some c2 =>
          have hnf : ¬(nows i - c2.timestamp < cache_duration) :=
            h5 i (le_refl i) hik c2 ho
          simp [cacheWaitLoop, ho, hnf]
      rw [hstep]
      exact ih (i + 1) k c (by omega) (by omega) h3 h4
        (fun j hj1 hj2 c2 hc => h5 j (by omega) hj2 c2 hc)

/-- Claim C8: a fresh cache entry (age strictly below the 2 s TTL) is
returned without enqueueing; otherwise a request is enqueued and the
caller polls the cache for 100 ticks of 100 ms, returning the first
fresh entry it observes and the empty list when every observation in
the 10 s window is stale or absent. -/
theorem C8_get_positions (entryCache : Option CacheEntry) (now0 : ℚ)
    (obs : ℕ → Option CacheEntry) (nows : ℕ → ℚ) :
    (∀ c, entryCache = some c → now0 - c.timestamp < cache_duration →
      get_positions entryCache now0 obs nows = ⟨false, c.positions⟩) ∧
    ((∀ c, entryCache = some c → ¬(now0 - c.timestamp < cache_duration)) →
      (get_positions entryCache now0 obs nows).enqueued = true ∧
      (∀ k c, 1 ≤ k → k ≤ 100 → obs k = some c →
        nows k - c.timestamp < cache_duration →
        (∀ j, 1 ≤ j → j < k → ∀ c2, obs j = some c2 →
          ¬(nows j - c2.timestamp < cache_duration)) →
        (get_positions entryCache now0 obs nows).positions = c.positions) ∧
      ((∀ k, 1 ≤ k → k ≤ 100 → ∀ c, obs k = some c →
        ¬(nows k - c.timestamp < cache_duration)) →
        (get_positions entryCache now0 obs nows).positions = [])) := by
  constructor
  · intro c hc hfresh
    simp [get_positions, hc, hfresh]
  · intro hstale
    have hrun : get_positions entryCache now0 obs nows =
        ⟨true, cacheWaitLoop obs nows 1 100⟩ := by
      cases hc : entryCache with
      | none => simp [get_positions]
      | some c => simp [get_positions, hstale c hc]
    rw [hrun]
    refine ⟨rfl, ?_, ?_⟩
    · intro k c hk1 hk2 hobs hfresh hprior
      exact cacheWaitLoop_first_fresh obs nows 100 1 k c hk1 (by omega) hobs hfresh hprior
    · intro hnone
      exact cacheWaitLoop_timeout obs nows 100 1
        (fun k hk1 hk2 c hc => hnone k hk1 (by omega) c hc)

/-- Witness for C8: a fresh entry at the initial check is served from the
cache with no enqueue. -/
theorem C8_witness :
    get_positions (some ⟨[], 0⟩) 1 (fun _ => none) (fun _ => 0) = ⟨false, []⟩ :=
  (C8_get_positions (some ⟨[], 0⟩) 1 (fun _ => none) (fun _ => 0)).1 ⟨[], 0⟩ rfl
    (by norm_num [cache_duration])

end MT5
